import Mathlib

/-!
Verification development for the speed-camera repository
(`final_project_speed_cam`).

The core under study is `src/backend/speed.py` (`analyze_video` and its
helpers), `src/backend/calibration.py` (`compute_mpp`) and
`src/backend/plate_ocr.py` (`read_plate_text_from_crop`).

Modelling conventions:
* Python floats are modelled as rationals (`ℚ`); the arithmetic claims under
  study are exact-arithmetic claims, so `ℚ` is the faithful carrier for the
  products, quotients and comparisons the code performs.
* `math.dist` is the Euclidean distance, whose value on rational points is in
  general irrational.  Every comparison the code makes on distances
  (`dist < best_dist`, `best_dist < 100`, `pix_dist >= MIN_PIXELS_FOR_SPEED`)
  is performed here on squared distances against squared thresholds, which is
  equivalent because squaring is strictly monotone on nonnegative reals.  The
  only place the code uses the distance value itself (not merely its order) is
  the instantaneous speed estimate; the frame-level model therefore takes the
  square-root function as an explicit parameter `sq`, and every frame-level
  theorem below is proved for all `sq`, hence in particular for the true
  square root.  The per-step theorems take the pixel displacement itself as a
  rational argument, exactly as the specification quantifies over it.
* Fallible code is modelled with `Except`; the Python exception class name is
  carried as the error value.
-/

namespace SpeedCam

/-- Track status strings used by `analyze_video` in `src/backend/speed.py`:
`"unknown"`, `"within_limit"`, `"grace"`, `"overspeed"`. -/
inductive Status where
  | unknown : Status
  | within_limit : Status
  | grace : Status
  | overspeed : Status
deriving DecidableEq

/-- The `Track` dataclass of `src/backend/speed.py` (lines 34-46).  Python
float fields are rationals, the owner dictionary is abstracted to a string
payload (its contents are never inspected by the engine). -/
structure Track where
  track_id : ℕ
  cls_id : ℕ
  last_center : Option (ℚ × ℚ)
  last_frame_idx : Option ℕ
  speeds_kmh : List ℚ
  max_speed_kmh : ℚ
  status : Status
  plate_text : Option String
  owner_info : Option String
  overspeed_handled : Bool
deriving DecidableEq

/-- Default-initialised `Track(track_id=..., cls_id=...)` as built at
`src/backend/speed.py` line 160. -/
def newTrack (track_id cls_id : ℕ) : Track :=
  { track_id := track_id
    cls_id := cls_id
    last_center := none
    last_frame_idx := none
    speeds_kmh := []
    max_speed_kmh := 0
    status := Status.unknown
    plate_text := none
    owner_info := none
    overspeed_handled := false }

/-- MIN_PIXELS_FOR_SPEED = 3.0 (speed.py line 27). -/
def MIN_PIXELS_FOR_SPEED : ℚ := 3

/-- MAX_REASONABLE_SPEED = 180.0 (speed.py line 30). -/
def MAX_REASONABLE_SPEED : ℚ := 180

/-- VEHICLE_CLASS_IDS = {2, 3, 5, 7} (speed.py line 24). -/
def VEHICLE_CLASS_IDS : List ℕ := [2, 3, 5, 7]

/-- The `estimate_speed_kmh` function of `src/backend/speed.py` (lines 54-59):
returns 0 for non-positive `dt`, otherwise converts the pixel displacement to
meters, divides by `dt` seconds and scales m/s to km/h by 3.6. -/
def estimate_speed_kmh (pix_dist dt meters_per_pixel : ℚ) : ℚ :=
  if dt ≤ 0 then 0
  else pix_dist * meters_per_pixel / dt * (36 / 10)

/-- The clamp at speed.py lines 176-178:
`if speed_now > MAX_REASONABLE_SPEED: speed_now = MAX_REASONABLE_SPEED`. -/
def clampSpeed (s : ℚ) : ℚ :=
  if MAX_REASONABLE_SPEED < s then MAX_REASONABLE_SPEED else s

/-- Squared Euclidean distance between two points.  `math.dist p q` is its
square root; see the module comment for why the model works with squares. -/
def dist2 (p q : ℚ × ℚ) : ℚ :=
  (p.1 - q.1) * (p.1 - q.1) + (p.2 - q.2) * (p.2 - q.2)

/-- A license-plate crop; the engine only ever inspects its `size`
(`plate_crop.size` in speed.py, the number of elements of the numpy array). -/
structure Crop where
  size : ℕ
deriving DecidableEq

/-- The `read_plate_text_from_crop` stub of `src/backend/plate_ocr.py`
(lines 6-15): returns the empty string on the degenerate branch and the empty
string on the normal branch. -/
def read_plate_text_from_crop (c : Crop) : String :=
  if c.size = 0 then "" else ""

/-- Speed-estimation block of `analyze_video` (speed.py lines 166-182): when
the track has a previous sample, the frame delta is positive, and the
displacement reaches `MIN_PIXELS_FOR_SPEED`, the clamped instantaneous
estimate is appended to `speeds_kmh` and folded into `max_speed_kmh`
(only if strictly larger). -/
def speedPhase (meters_per_pixel fps : ℚ) (frame_idx : ℕ) (pix_dist : ℚ)
    (t : Track) : Track :=
  let upd : List ℚ × ℚ :=
    match t.last_center, t.last_frame_idx with
    | some _, some lfi =>
      let frame_delta : ℤ := (frame_idx : ℤ) - (lfi : ℤ)
      if 0 < frame_delta ∧ MIN_PIXELS_FOR_SPEED ≤ pix_dist then
        let dt : ℚ := (frame_delta : ℚ) / fps
        let speed_now := clampSpeed (estimate_speed_kmh pix_dist dt meters_per_pixel)
        (t.speeds_kmh ++ [speed_now],
         if t.max_speed_kmh < speed_now then speed_now else t.max_speed_kmh)
      else (t.speeds_kmh, t.max_speed_kmh)
    | _, _ => (t.speeds_kmh, t.max_speed_kmh)
  { t with speeds_kmh := upd.1, max_speed_kmh := upd.2 }

/-- `tr.last_center = center; tr.last_frame_idx = frame_idx`
(speed.py lines 184-185). -/
def markPhase (center : ℚ × ℚ) (frame_idx : ℕ) (t : Track) : Track :=
  { t with last_center := some center, last_frame_idx := some frame_idx }

/-- Status classification block (speed.py lines 187-193): overspeed above
`grace_limit`, grace above `limit`, within_limit above 0, otherwise the
status field is left untouched. -/
def classifyPhase (limit grace_limit : ℚ) (t : Track) : Track :=
  { t with status :=
      if grace_limit < t.max_speed_kmh then Status.overspeed
      else if limit < t.max_speed_kmh then Status.grace
      else if 0 < t.max_speed_kmh then Status.within_limit
      else t.status }

/-- Plate-OCR block (speed.py lines 195-214).  The crop is `none` when the
sliced array is `None`; `plate_text or None` maps the empty string to `None`;
`lookup_owner` is invoked only when `plate_text` is truthy, and the returned
Boolean records whether that call happened. -/
def ocrPhase (lookup : String → Option String) (crop : Option Crop)
    (t : Track) : Track × Bool :=
  let doOcr : Bool :=
    decide (t.plate_text = none ∧
      (t.status = Status.within_limit ∨ t.status = Status.grace ∨
        t.status = Status.overspeed))
  let plate_text : String :=
    match crop with
    | some c => if 0 < c.size then read_plate_text_from_crop c else ""
    | none => ""
  ({ t with
      plate_text :=
        if doOcr then (if plate_text = "" then none else some plate_text)
        else t.plate_text
      owner_info :=
        if doOcr then (if plate_text = "" then none else lookup plate_text)
        else t.owner_info },
   doOcr && !(plate_text = ""))

/-- Overspeed-email block (speed.py lines 216-219): fires exactly when the
status is overspeed and the one-shot flag is unset, and then sets the flag. -/
def emailPhase (t : Track) : Track × Bool :=
  let fire : Bool := decide (t.status = Status.overspeed) && !t.overspeed_handled
  ({ t with overspeed_handled := if fire then true else t.overspeed_handled },
   fire)

/-- Result of processing one detection against one track. -/
structure StepOut where
  tr : Track
  lookup_called : Bool
  emitted : Bool
deriving DecidableEq

/-- One pass of the per-detection body of `analyze_video` for a given track
(speed.py lines 166-219): speed estimation, sample marking, classification,
plate OCR, overspeed email — in source order. -/
def trackStep (limit grace_limit meters_per_pixel fps : ℚ)
    (lookup : String → Option String) (center : ℚ × ℚ) (frame_idx : ℕ)
    (pix_dist : ℚ) (crop : Option Crop) (t : Track) : StepOut :=
  let t1 := speedPhase meters_per_pixel fps frame_idx pix_dist t
  let t2 := markPhase center frame_idx t1
  let t3 := classifyPhase limit grace_limit t2
  let r4 := ocrPhase lookup crop t3
  let r5 := emailPhase r4.1
  { tr := r5.1, lookup_called := r4.2, emitted := r5.2 }

/-- Per-step input record used to iterate `trackStep` over one track. -/
structure StepIn where
  center : ℚ × ℚ
  frame_idx : ℕ
  pix_dist : ℚ
  crop : Option Crop

/-- Iterate `trackStep` over a list of inputs (the successive frames in which
the track is matched). -/
def runTrack (limit grace_limit meters_per_pixel fps : ℚ)
    (lookup : String → Option String) : List StepIn → Track → Track
  | [], t => t
  | x :: xs, t =>
    runTrack limit grace_limit meters_per_pixel fps lookup xs
      (trackStep limit grace_limit meters_per_pixel fps lookup
        x.center x.frame_idx x.pix_dist x.crop t).tr

/-- Iterate `trackStep`, also returning the list of per-step overspeed-email
emissions in order. -/
def runTrackTrace (limit grace_limit meters_per_pixel fps : ℚ)
    (lookup : String → Option String) : List StepIn → Track → Track × List Bool
  | [], t => (t, [])
  | x :: xs, t =>
    let o := trackStep limit grace_limit meters_per_pixel fps lookup
      x.center x.frame_idx x.pix_dist x.crop t
    let r := runTrackTrace limit grace_limit meters_per_pixel fps lookup xs o.tr
    (r.1, o.emitted :: r.2)

/-- A detection as consumed by the per-frame loop of `analyze_video`: the
vehicle class, the box center `((x1+x2)/2, (y1+y2)/2)` and the plate crop
sliced from the frame (`none` models a `None` array). -/
structure Detection where
  cls_id : ℕ
  center : ℚ × ℚ
  crop : Option Crop
deriving DecidableEq

/-- Mutable state of the per-frame loop of `analyze_video`: the track list,
the next fresh identifier, and counters for the two external side effects
(`send_violation_email` and `lookup_owner` invocations). -/
structure FrameState where
  tracks : List Track
  next_track_id : ℕ
  emails : ℕ
  lookups : ℕ
deriving DecidableEq

/-- `frame_idx = 0; next_track_id = 1; tracks = []` (speed.py lines 92-94). -/
def initState : FrameState :=
  { tracks := [], next_track_id := 1, emails := 0, lookups := 0 }

/-- Nearest-neighbour scan of speed.py lines 146-157, on squared distances:
walk the track list in order, skip tracks of a different class or without a
last center, and keep the strictly closest candidate seen so far (the first
minimum wins, exactly as `dist < best_dist` does).  Returns the index of the
best track together with its squared distance. -/
def bestUpd (cls : ℕ) (c : ℚ × ℚ) (i : ℕ) (tr : Track)
    (best : Option (ℕ × ℚ)) : Option (ℕ × ℚ) :=
  if tr.cls_id = cls then
    match tr.last_center with
    | none => best
    | some lc =>
      let d := dist2 c lc
      match best with
      | none => some (i, d)
      | some (_, bd) => if d < bd then some (i, d) else best
  else best

def bestMatchAux (cls : ℕ) (c : ℚ × ℚ) :
    List Track → ℕ → Option (ℕ × ℚ) → Option (ℕ × ℚ)
  | [], _, best => best
  | tr :: rest, i, best =>
    bestMatchAux cls c rest (i + 1) (bestUpd cls c i tr best)

/-- Entry point of the nearest-neighbour scan over the whole track list. -/
def bestMatch (tracks : List Track) (cls : ℕ) (c : ℚ × ℚ) : Option (ℕ × ℚ) :=
  bestMatchAux cls c tracks 0 none

/-- Gating threshold of speed.py line 159 (`best_dist < 100`), squared. -/
def GATE2 : ℚ := 10000

/-- New-track path of speed.py lines 160-162 followed by the rest of the
per-detection body running on the fresh track: the track is appended to the
list and then mutated in place by the remaining blocks. -/
def createAndStep (limit grace_limit meters_per_pixel fps : ℚ)
    (lookup : String → Option String) (frame_idx : ℕ)
    (st : FrameState) (det : Detection) : FrameState × Option ℕ :=
  let tr0 := newTrack st.next_track_id det.cls_id
  let o := trackStep limit grace_limit meters_per_pixel fps lookup
    det.center frame_idx 0 det.crop tr0
  ({ tracks := st.tracks ++ [o.tr]
     next_track_id := st.next_track_id + 1
     emails := st.emails + (if o.emitted then 1 else 0)
     lookups := st.lookups + (if o.lookup_called then 1 else 0) },
   some tr0.track_id)

/-- Per-detection body of `analyze_video` (speed.py lines 132-221) for one
detection: filter to vehicle classes, associate by nearest neighbour under
the gate, then run the speed/classify/OCR/email blocks on the matched or
fresh track.  The returned `Option ℕ` is the identifier of the track this
detection was assigned to (`none` for filtered non-vehicle detections).
`sq` stands for the square root used by `math.dist`; see the module
comment. -/
def processDetection (limit grace_limit meters_per_pixel fps : ℚ)
    (sq : ℚ → ℚ) (lookup : String → Option String) (frame_idx : ℕ)
    (st : FrameState) (det : Detection) : FrameState × Option ℕ :=
  if det.cls_id ∈ VEHICLE_CLASS_IDS then
    match bestMatch st.tracks det.cls_id det.center with
    | some (i, bd) =>
      if bd < GATE2 then
        match st.tracks[i]? with
        | some tr =>
          let o := trackStep limit grace_limit meters_per_pixel fps lookup
            det.center frame_idx (sq bd) det.crop tr
          ({ tracks := st.tracks.set i o.tr
             next_track_id := st.next_track_id
             emails := st.emails + (if o.emitted then 1 else 0)
             lookups := st.lookups + (if o.lookup_called then 1 else 0) },
           some tr.track_id)
        | none => (st, none)
      else
        createAndStep limit grace_limit meters_per_pixel fps lookup
          frame_idx st det
    | none =>
      createAndStep limit grace_limit meters_per_pixel fps lookup
        frame_idx st det
  else (st, none)

/-- Fold the per-detection body over the detections of one frame, collecting
the assigned track identifiers in detection order. -/
def processDetections (limit grace_limit meters_per_pixel fps : ℚ)
    (sq : ℚ → ℚ) (lookup : String → Option String) (frame_idx : ℕ) :
    List Detection → FrameState → FrameState × List ℕ
  | [], st => (st, [])
  | d :: ds, st =>
    let r := processDetection limit grace_limit meters_per_pixel fps sq lookup
      frame_idx st d
    let rest := processDetections limit grace_limit meters_per_pixel fps sq
      lookup frame_idx ds r.1
    (rest.1, r.2.toList ++ rest.2)

/-- One iteration of the `while` loop of `analyze_video` for a frame that
reaches the detection loop (an empty detection list models the
`continue` on frames with no boxes, which leaves the state untouched). -/
def processFrame (limit grace_limit meters_per_pixel fps : ℚ)
    (sq : ℚ → ℚ) (lookup : String → Option String) (frame_idx : ℕ)
    (st : FrameState) (dets : List Detection) : FrameState × List ℕ :=
  processDetections limit grace_limit meters_per_pixel fps sq lookup
    frame_idx dets st

/-- Process a list of frames, each given as its frame index together with its
vehicle detections. -/
def processVideo (limit grace_limit meters_per_pixel fps : ℚ)
    (sq : ℚ → ℚ) (lookup : String → Option String) :
    List (ℕ × List Detection) → FrameState → FrameState
  | [], st => st
  | f :: fs, st =>
    processVideo limit grace_limit meters_per_pixel fps sq lookup fs
      (processFrame limit grace_limit meters_per_pixel fps sq lookup
        f.1 st f.2).1

/-- Report filter of speed.py lines 300-313: only tracks with a positive
running maximum appear in the produced summary lists. -/
def reportTracks (st : FrameState) : List Track :=
  st.tracks.filter (fun tr => decide (0 < tr.max_speed_kmh))

/-- The `compute_mpp` function of `src/backend/calibration.py` (lines 3-7).
Python computes `dist = (dx*dx + dy*dy)**0.5` and then evaluates
`lane_width_m / dist`; float division by `0.0` raises an uncaught
`ZeroDivisionError`, and `dist = 0` exactly when `dx*dx + dy*dy = 0`
(the square root of a nonnegative real vanishes only at zero).  The error
value carries the Python exception class name. -/
noncomputable def compute_mpp (p1 p2 : ℚ × ℚ) (lane_width_m : ℚ) :
    Except String ℝ :=
  let dx := p2.1 - p1.1
  let dy := p2.2 - p1.2
  if dx * dx + dy * dy = 0 then Except.error "ZeroDivisionError"
  else Except.ok ((lane_width_m : ℝ) / Real.sqrt ((dx * dx + dy * dy : ℚ) : ℝ))

/-! ### Helper lemmas about the per-detection phases -/

/-- Status determined by a running maximum under the classification block,
with `unknown` in the final else-branch (the value a fresh track keeps). -/
def statusOf (m limit grace_limit : ℚ) : Status :=
  if grace_limit < m then Status.overspeed
  else if limit < m then Status.grace
  else if 0 < m then Status.within_limit
  else Status.unknown

theorem statusOf_overspeed_iff {m limit grace_limit : ℚ} :
    statusOf m limit grace_limit = Status.overspeed ↔ grace_limit < m := by
  unfold statusOf
  split_ifs <;> simp_all

theorem statusOf_nonpos {m limit grace_limit : ℚ}
    (h : statusOf m limit grace_limit = Status.unknown) : m ≤ 0 := by
  unfold statusOf at h
  split_ifs at h with h1 h2 h3
  exact le_of_not_lt h3

theorem speedPhase_track_id (mpp fps : ℚ) (fi : ℕ) (d : ℚ) (t : Track) :
    (speedPhase mpp fps fi d t).track_id = t.track_id := rfl

theorem speedPhase_status (mpp fps : ℚ) (fi : ℕ) (d : ℚ) (t : Track) :
    (speedPhase mpp fps fi d t).status = t.status := rfl

theorem speedPhase_plate (mpp fps : ℚ) (fi : ℕ) (d : ℚ) (t : Track) :
    (speedPhase mpp fps fi d t).plate_text = t.plate_text := rfl

theorem speedPhase_handled (mpp fps : ℚ) (fi : ℕ) (d : ℚ) (t : Track) :
    (speedPhase mpp fps fi d t).overspeed_handled = t.overspeed_handled := rfl

theorem speedPhase_max_mono (mpp fps : ℚ) (fi : ℕ) (d : ℚ) (t : Track) :
    t.max_speed_kmh ≤ (speedPhase mpp fps fi d t).max_speed_kmh := by
  unfold speedPhase
  rcases hc : t.last_center with _ | c <;>
    rcases hf : t.last_frame_idx with _ | f <;> simp
  split
  · split
    · exact le_of_lt (by assumption)
    · exact le_refl _
  · exact le_refl _

theorem speedPhase_nonneg (mpp fps : ℚ) (fi : ℕ) (d : ℚ) (t : Track)
    (h : 0 ≤ t.max_speed_kmh) :
    0 ≤ (speedPhase mpp fps fi d t).max_speed_kmh :=
  le_trans h (speedPhase_max_mono mpp fps fi d t)

theorem classifyPhase_status_eq (limit grace_limit : ℚ) (t : Track) :
    (classifyPhase limit grace_limit t).status
        = statusOf t.max_speed_kmh limit grace_limit ∨
      ((classifyPhase limit grace_limit t).status = t.status ∧
        statusOf t.max_speed_kmh limit grace_limit = Status.unknown) := by
  unfold classifyPhase statusOf
  split_ifs <;> simp

theorem trackStep_track_id (limit grace_limit mpp fps : ℚ)
    (lookup : String → Option String) (c : ℚ × ℚ) (fi : ℕ) (d : ℚ)
    (crop : Option Crop) (t : Track) :
    (trackStep limit grace_limit mpp fps lookup c fi d crop t).tr.track_id
      = t.track_id := rfl

theorem trackStep_cls_id (limit grace_limit mpp fps : ℚ)
    (lookup : String → Option String) (c : ℚ × ℚ) (fi : ℕ) (d : ℚ)
    (crop : Option Crop) (t : Track) :
    (trackStep limit grace_limit mpp fps lookup c fi d crop t).tr.cls_id
      = t.cls_id := rfl

theorem trackStep_speeds (limit grace_limit mpp fps : ℚ)
    (lookup : String → Option String) (c : ℚ × ℚ) (fi : ℕ) (d : ℚ)
    (crop : Option Crop) (t : Track) :
    (trackStep limit grace_limit mpp fps lookup c fi d crop t).tr.speeds_kmh
      = (speedPhase mpp fps fi d t).speeds_kmh := rfl

theorem trackStep_max (limit grace_limit mpp fps : ℚ)
    (lookup : String → Option String) (c : ℚ × ℚ) (fi : ℕ) (d : ℚ)
    (crop : Option Crop) (t : Track) :
    (trackStep limit grace_limit mpp fps lookup c fi d crop t).tr.max_speed_kmh
      = (speedPhase mpp fps fi d t).max_speed_kmh := rfl

theorem trackStep_status (limit grace_limit mpp fps : ℚ)
    (lookup : String → Option String) (c : ℚ × ℚ) (fi : ℕ) (d : ℚ)
    (crop : Option Crop) (t : Track) :
    (trackStep limit grace_limit mpp fps lookup c fi d crop t).tr.status
      = (classifyPhase limit grace_limit
          (markPhase c fi (speedPhase mpp fps fi d t))).status := rfl

/-! ### The reachable-track invariant -/

/-- Invariant satisfied by every track state reachable from a freshly created
track through the per-detection body: the running maximum is nonnegative, the
status field always agrees with the classification of the running maximum,
and the one-shot email flag is set exactly while the status is overspeed. -/
def TrackInv (limit grace_limit : ℚ) (t : Track) : Prop :=
  0 ≤ t.max_speed_kmh ∧
  t.status = statusOf t.max_speed_kmh limit grace_limit ∧
  (t.overspeed_handled = true ↔ t.status = Status.overspeed)

theorem trackInv_init (limit grace_limit : ℚ) (hl : 0 ≤ limit)
    (hg : 0 ≤ grace_limit) (id cls : ℕ) :
    TrackInv limit grace_limit (newTrack id cls) := by
  refine ⟨le_refl 0, ?_, by simp [newTrack]⟩
  unfold newTrack statusOf
  simp only
  rw [if_neg (by linarith), if_neg (by linarith), if_neg (by linarith)]

theorem trackStep_status_statusOf (limit grace_limit mpp fps : ℚ)
    (lookup : String → Option String) (c : ℚ × ℚ) (fi : ℕ) (d : ℚ)
    (crop : Option Crop) (t : Track) (h0 : 0 ≤ t.max_speed_kmh)
    (hs : t.status = statusOf t.max_speed_kmh limit grace_limit) :
    (trackStep limit grace_limit mpp fps lookup c fi d crop t).tr.status
      = statusOf
          (trackStep limit grace_limit mpp fps lookup c fi d crop t).tr.max_speed_kmh
          limit grace_limit := by
  rw [trackStep_status, trackStep_max]
  rcases classifyPhase_status_eq limit grace_limit
      (markPhase c fi (speedPhase mpp fps fi d t)) with h | ⟨h, hu⟩
  · exact h
  · have hmax : (speedPhase mpp fps fi d t).max_speed_kmh ≤ 0 :=
      statusOf_nonpos hu
    have hmax0 : t.max_speed_kmh = 0 :=
      le_antisymm (le_trans (speedPhase_max_mono mpp fps fi d t) hmax) h0
    have hmax1 : (speedPhase mpp fps fi d t).max_speed_kmh = 0 :=
      le_antisymm hmax (by rw [← hmax0]; exact speedPhase_max_mono mpp fps fi d t)
    have : (markPhase c fi (speedPhase mpp fps fi d t)).status = t.status := rfl
    rw [h, this, hs, hmax0, hmax1]

theorem trackStep_inv (limit grace_limit mpp fps : ℚ)
    (lookup : String → Option String) (c : ℚ × ℚ) (fi : ℕ) (d : ℚ)
    (crop : Option Crop) (t : Track) (h : TrackInv limit grace_limit t) :
    TrackInv limit grace_limit
      (trackStep limit grace_limit mpp fps lookup c fi d crop t).tr := by
  obtain ⟨h0, hs, hh⟩ := h
  refine ⟨?_, trackStep_status_statusOf limit grace_limit mpp fps lookup
    c fi d crop t h0 hs, ?_⟩
  · rw [trackStep_max]; exact speedPhase_nonneg mpp fps fi d t h0
  · have hstat : (trackStep limit grace_limit mpp fps lookup c fi d crop t).tr.status
        = (classifyPhase limit grace_limit
            (markPhase c fi (speedPhase mpp fps fi d t))).status := rfl
    set t3 := classifyPhase limit grace_limit
      (markPhase c fi (speedPhase mpp fps fi d t)) with ht3
    have hhandled3 : t3.overspeed_handled = t.overspeed_handled := rfl
    have hstep : (trackStep limit grace_limit mpp fps lookup c fi d crop t).tr.overspeed_handled
        = (if (decide (t3.status = Status.overspeed) && !t3.overspeed_handled)
            then true else t3.overspeed_handled) := rfl
    rw [hstep, hstat, hhandled3]
    by_cases h3 : t3.status = Status.overspeed
    · simp [h3]
    · simp only [h3, decide_eq_true_eq, iff_false]
      have hts : t.status ≠ Status.overspeed := by
        intro habs
        apply h3
        have hgl : grace_limit < t.max_speed_kmh := by
          rw [hs] at habs
          exact statusOf_overspeed_iff.mp habs
      -- status after the step classifies a maximum at least as large
        have hmono := speedPhase_max_mono mpp fps fi d t
        have := trackStep_status_statusOf limit grace_limit mpp fps lookup
          c fi d crop t h0 hs
        rw [hstat] at this
        rw [this, trackStep_max] at *
        exact statusOf_overspeed_iff.mpr (lt_of_lt_of_le hgl hmono)
      have : t.overspeed_handled = false := by
        rcases Bool.eq_false_or_eq_true t.overspeed_handled with hb | hb
        · exact absurd (hh.mp hb) hts
        · exact hb
      simp [this, h3]

theorem runTrack_inv (limit grace_limit mpp fps : ℚ)
    (lookup : String → Option String) (inputs : List StepIn) (t : Track)
    (h : TrackInv limit grace_limit t) :
    TrackInv limit grace_limit
      (runTrack limit grace_limit mpp fps lookup inputs t) := by
  induction inputs generalizing t with
  | nil => exact h
  | cons x xs ih =>
    exact ih _ (trackStep_inv limit grace_limit mpp fps lookup
      x.center x.frame_idx x.pix_dist x.crop t h)

theorem runTrack_take_succ (limit grace_limit mpp fps : ℚ)
    (lookup : String → Option String) (inputs : List StepIn) (i : ℕ)
    (t : Track) :
    runTrack limit grace_limit mpp fps lookup (inputs.take (i + 1)) t
      = (match inputs[i]? with
        | some x =>
          (trackStep limit grace_limit mpp fps lookup x.center x.frame_idx
            x.pix_dist x.crop
            (runTrack limit grace_limit mpp fps lookup (inputs.take i) t)).tr
        | none => runTrack limit grace_limit mpp fps lookup (inputs.take i) t) := by
  induction inputs generalizing i t with
  | nil => cases i <;> simp [runTrack]
  | cons x xs ih =>
    cases i with
    | zero => simp [runTrack]
    | succ j => simpa [runTrack] using ih j (trackStep limit grace_limit mpp
        fps lookup x.center x.frame_idx x.pix_dist x.crop t).tr

/-! ### Claim C5: monotone running maximum -/

/-- C5: for any sequence of speed updates applied to one track, the running
maximum `max_speed_kmh` is monotonically non-decreasing: a single
per-detection step never decreases it (first conjunct, for an arbitrary
current track state), and along any update sequence the value after update
`i+1` is at least the value after update `i` (second conjunct). -/
theorem max_speed_monotone (limit grace_limit mpp fps : ℚ)
    (lookup : String → Option String) :
    (∀ (t : Track) (c : ℚ × ℚ) (fi : ℕ) (d : ℚ) (crop : Option Crop),
      t.max_speed_kmh ≤
        (trackStep limit grace_limit mpp fps lookup c fi d crop t).tr.max_speed_kmh) ∧
    (∀ (inputs : List StepIn) (t0 : Track) (i : ℕ),
      (runTrack limit grace_limit mpp fps lookup (inputs.take i) t0).max_speed_kmh ≤
        (runTrack limit grace_limit mpp fps lookup (inputs.take (i + 1)) t0).max_speed_kmh) := by
  constructor
  · intro t c fi d crop
    rw [trackStep_max]
    exact speedPhase_max_mono mpp fps fi d t
  · intro inputs t0 i
    rw [runTrack_take_succ]
    cases h : inputs[i]? with
    | none => simp
    | some x =>
      simp only
      rw [trackStep_max]
      exact speedPhase_max_mono mpp fps x.frame_idx x.pix_dist _

/-! ### Claim C3: classification consistency -/

theorem statusOf_iffs (m limit grace_limit : ℚ) (h0 : 0 ≤ m)
    (hl : 0 ≤ limit) (hg : limit ≤ grace_limit) :
    (statusOf m limit grace_limit = Status.overspeed ↔ grace_limit < m) ∧
    (statusOf m limit grace_limit = Status.grace ↔
      limit < m ∧ m ≤ grace_limit) ∧
    (statusOf m limit grace_limit = Status.within_limit ↔
      0 < m ∧ m ≤ limit) ∧
    (statusOf m limit grace_limit = Status.unknown ↔ m = 0) := by
  unfold statusOf
  refine ⟨?_, ?_, ?_, ?_⟩ <;> split_ifs with h1 h2 h3 <;> simp <;>
    first
      | linarith
      | (intro hx; linarith)
      | (constructor <;> linarith)

/-- C3: after any sequence of per-detection updates applied to a freshly
created track with configured nonnegative speed limit and grace band, the
status field satisfies exactly the classification predicates of the spec:
overspeed iff the running maximum exceeds `limit + grace`, grace iff it lies
in `(limit, limit + grace]`, within_limit iff it lies in `(0, limit]`, and
unknown iff it is still zero. -/
theorem classification_consistent (limit grace mpp fps : ℚ)
    (lookup : String → Option String) (id cls : ℕ) (inputs : List StepIn)
    (hl : 0 ≤ limit) (hg : 0 ≤ grace) :
    ((runTrack limit (limit + grace) mpp fps lookup inputs
          (newTrack id cls)).status = Status.overspeed ↔
        limit + grace <
          (runTrack limit (limit + grace) mpp fps lookup inputs
            (newTrack id cls)).max_speed_kmh) ∧
    ((runTrack limit (limit + grace) mpp fps lookup inputs
          (newTrack id cls)).status = Status.grace ↔
        (limit <
          (runTrack limit (limit + grace) mpp fps lookup inputs
            (newTrack id cls)).max_speed_kmh ∧
          (runTrack limit (limit + grace) mpp fps lookup inputs
            (newTrack id cls)).max_speed_kmh ≤ limit + grace)) ∧
    ((runTrack limit (limit + grace) mpp fps lookup inputs
          (newTrack id cls)).status = Status.within_limit ↔
        (0 <
          (runTrack limit (limit + grace) mpp fps lookup inputs
            (newTrack id cls)).max_speed_kmh ∧
          (runTrack limit (limit + grace) mpp fps lookup inputs
            (newTrack id cls)).max_speed_kmh ≤ limit)) ∧
    ((runTrack limit (limit + grace) mpp fps lookup inputs
          (newTrack id cls)).status = Status.unknown ↔
        (runTrack limit (limit + grace) mpp fps lookup inputs
          (newTrack id cls)).max_speed_kmh = 0) := by
  have hinv := runTrack_inv limit (limit + grace) mpp fps lookup inputs
    (newTrack id cls)
    (trackInv_init limit (limit + grace) hl (by linarith) id cls)
  obtain ⟨h0, hs, _⟩ := hinv
  rw [hs]
  exact statusOf_iffs _ limit (limit + grace) h0 hl (by linarith)

/-! ### Claim C1: the recorded speed is the clamped instantaneous estimate -/

theorem clampSpeed_eq_min (s : ℚ) : clampSpeed s = min s MAX_REASONABLE_SPEED := by
  unfold clampSpeed
  rcases le_or_lt s MAX_REASONABLE_SPEED with h | h
  · rw [if_neg (not_lt.mpr h), min_eq_left h]
  · rw [if_pos h, min_eq_right (le_of_lt h)]

theorem fold_max_eq (a s : ℚ) : (if a < s then s else a) = max a s := by
  rcases le_or_lt s a with h | h
  · rw [if_neg (not_lt.mpr h), max_eq_left h]
  · rw [if_pos h, max_eq_right (le_of_lt h)]

/-- C1: for every displacement `d ≥ 0`, frame delta `dtf > 0`, `fps > 0` and
`mpp > 0`, a per-detection step records, exactly when `d` reaches the
3-pixel threshold, the speed `min (d * mpp / (dtf / fps) * 3.6) 180`
(`36/10 = 3.6`, `MAX_REASONABLE_SPEED = 180`): the instantaneous estimate
clamped to the configured maximum.  That clamped value — not the raw
estimate — is what is appended to the speed history and folded into the
running maximum by `max`. -/
theorem speed_formula_clamped (limit grace_limit mpp fps : ℚ)
    (lookup : String → Option String) (c c0 : ℚ × ℚ) (f0 dtf : ℕ)
    (crop : Option Crop) (t : Track) (d : ℚ)
    (hc : t.last_center = some c0) (hf : t.last_frame_idx = some f0)
    (hd : 0 ≤ d) (hdt : 0 < dtf) (hfps : 0 < fps) (hmpp : 0 < mpp) :
    (trackStep limit grace_limit mpp fps lookup c (f0 + dtf) d crop t).tr.speeds_kmh
        = t.speeds_kmh ++
          (if MIN_PIXELS_FOR_SPEED ≤ d then
            [min (d * mpp / ((dtf : ℚ) / fps) * (36 / 10)) MAX_REASONABLE_SPEED]
          else []) ∧
    (trackStep limit grace_limit mpp fps lookup c (f0 + dtf) d crop t).tr.max_speed_kmh
        = (if MIN_PIXELS_FOR_SPEED ≤ d then
            max t.max_speed_kmh
              (min (d * mpp / ((dtf : ℚ) / fps) * (36 / 10)) MAX_REASONABLE_SPEED)
          else t.max_speed_kmh) := by
  have hdelta : ((f0 + dtf : ℕ) : ℤ) - (f0 : ℤ) = (dtf : ℤ) := by push_cast; ring
  have hdeltapos : (0 : ℤ) < ((f0 + dtf : ℕ) : ℤ) - (f0 : ℤ) := by
    rw [hdelta]; exact_mod_cast hdt
  have hdtq : (0 : ℚ) < (dtf : ℚ) / fps := by
    apply div_pos _ hfps
    exact_mod_cast hdt
  have hcast : ((dtf : ℤ) : ℚ) = (dtf : ℚ) := by norm_cast
  have hest : estimate_speed_kmh d ((dtf : ℚ) / fps) mpp
      = d * mpp / ((dtf : ℚ) / fps) * (36 / 10) := by
    unfold estimate_speed_kmh
    rw [if_neg (not_le.mpr hdtq)]
  constructor
  · rw [trackStep_speeds]
    unfold speedPhase
    rw [hc, hf]
    simp only
    by_cases h3 : MIN_PIXELS_FOR_SPEED ≤ d
    · rw [if_pos ⟨hdeltapos, h3⟩, if_pos h3, clampSpeed_eq_min, hdelta,
        hcast, hest]
    · rw [if_neg (by intro hx; exact h3 hx.2), if_neg h3, List.append_nil]
  · rw [trackStep_max]
    unfold speedPhase
    rw [hc, hf]
    simp only
    by_cases h3 : MIN_PIXELS_FOR_SPEED ≤ d
    · rw [if_pos ⟨hdeltapos, h3⟩, if_pos h3, clampSpeed_eq_min, hdelta,
        hcast, hest, fold_max_eq]
    · rw [if_neg (by intro hx; exact h3 hx.2), if_neg h3]

/-- A concrete matched track used by the witnesses: a fresh car track that
has its previous sample at center `(0, 0)`, frame 1. -/
def demoTrack : Track :=
  { newTrack 1 2 with last_center := some (0, 0), last_frame_idx := some 1 }

/-- Witness for C1 at the scenario of the spec: displacement 50 px over one
frame at 30 fps with `mpp = 0.035` gives a raw estimate of 189 km/h, recorded
as the clamp 180. -/
theorem speed_formula_clamped_witness :
    ((0 : ℚ) ≤ 50 ∧ 0 < (1 : ℕ) ∧ (0 : ℚ) < 30 ∧ (0 : ℚ) < 7 / 200) ∧
    (trackStep 60 65 (7 / 200) 30 (fun _ => none) (50, 0) (1 + 1) 50 none
        demoTrack).tr.speeds_kmh
      = demoTrack.speeds_kmh ++
        (if MIN_PIXELS_FOR_SPEED ≤ (50 : ℚ) then
          [min ((50 : ℚ) * (7 / 200) / ((1 : ℚ) / 30) * (36 / 10))
            MAX_REASONABLE_SPEED]
        else []) := by
  refine ⟨⟨by norm_num, by norm_num, by norm_num, by norm_num⟩, ?_⟩
  exact (speed_formula_clamped 60 65 (7 / 200) 30 (fun _ => none) (50, 0)
    (0, 0) 1 1 none demoTrack 50 rfl rfl (by norm_num) (by norm_num)
    (by norm_num) (by norm_num)).1

/-! ### Claim C8: sub-threshold displacement records nothing -/

theorem speedPhase_subthreshold (mpp fps : ℚ) (fi : ℕ) (d : ℚ) (t : Track)
    (hd : d < MIN_PIXELS_FOR_SPEED) :
    speedPhase mpp fps fi d t = t := by
  unfold speedPhase
  rcases hc : t.last_center with _ | c <;>
    rcases hf : t.last_frame_idx with _ | f <;> simp only [hc, hf] <;>
    try (rw [← hc, ← hf])
  rw [if_neg (by intro hx; exact absurd hx.2 (not_le.mpr hd))]

/-- C8: when a matched track's displacement since its previous sample is
below `MIN_PIXELS_FOR_SPEED = 3`, the per-detection step records no speed:
the speed history gets no entry, the running maximum is unchanged, and the
status is unchanged — for every track state reachable from a fresh track
under nonnegative configured limit and grace. -/
theorem subthreshold_no_update (limit grace mpp fps : ℚ)
    (lookup : String → Option String) (id cls : ℕ) (inputs : List StepIn)
    (c : ℚ × ℚ) (fi : ℕ) (d : ℚ) (crop : Option Crop)
    (hl : 0 ≤ limit) (hg : 0 ≤ grace) (hd : d < MIN_PIXELS_FOR_SPEED) :
    (trackStep limit (limit + grace) mpp fps lookup c fi d crop
        (runTrack limit (limit + grace) mpp fps lookup inputs
          (newTrack id cls))).tr.speeds_kmh
      = (runTrack limit (limit + grace) mpp fps lookup inputs
          (newTrack id cls)).speeds_kmh ∧
    (trackStep limit (limit + grace) mpp fps lookup c fi d crop
        (runTrack limit (limit + grace) mpp fps lookup inputs
          (newTrack id cls))).tr.max_speed_kmh
      = (runTrack limit (limit + grace) mpp fps lookup inputs
          (newTrack id cls)).max_speed_kmh ∧
    (trackStep limit (limit + grace) mpp fps lookup c fi d crop
        (runTrack limit (limit + grace) mpp fps lookup inputs
          (newTrack id cls))).tr.status
      = (runTrack limit (limit + grace) mpp fps lookup inputs
          (newTrack id cls)).status := by
  set t := runTrack limit (limit + grace) mpp fps lookup inputs
    (newTrack id cls) with ht
  have hinv : TrackInv limit (limit + grace) t :=
    runTrack_inv limit (limit + grace) mpp fps lookup inputs (newTrack id cls)
      (trackInv_init limit (limit + grace) hl (by linarith) id cls)
  obtain ⟨h0, hs, _⟩ := hinv
  have hsp := speedPhase_subthreshold mpp fps fi d t hd
  refine ⟨?_, ?_, ?_⟩
  · rw [trackStep_speeds, hsp]
  · rw [trackStep_max, hsp]
  · have := trackStep_status_statusOf limit (limit + grace) mpp fps lookup
      c fi d crop t h0 hs
    rw [this, trackStep_max, hsp, ← hs]

/-- Witness for C8: a 1-px displacement against a freshly created track
leaves history, maximum and status untouched. -/
theorem subthreshold_no_update_witness :
    ((0 : ℚ) ≤ 60 ∧ (0 : ℚ) ≤ 5 ∧ (1 : ℚ) < MIN_PIXELS_FOR_SPEED) ∧
    (trackStep 60 (60 + 5) (1 / 20) 30 (fun _ => none) (1, 0) 7 1 none
        (runTrack 60 (60 + 5) (1 / 20) 30 (fun _ => none) [] (newTrack 1 2))).tr.status
      = (runTrack 60 (60 + 5) (1 / 20) 30 (fun _ => none) [] (newTrack 1 2)).status := by
  refine ⟨⟨by norm_num, by norm_num, ?_⟩, ?_⟩
  · unfold MIN_PIXELS_FOR_SPEED; norm_num
  · exact (subthreshold_no_update 60 5 (1 / 20) 30 (fun _ => none) 1 2 []
      (1, 0) 7 1 none (by norm_num) (by norm_num)
      (by unfold MIN_PIXELS_FOR_SPEED; norm_num)).2.2

/-- Witness for C3 with the default configuration (limit 60, grace 5) on a
freshly created track: status is unknown iff the maximum is zero. -/
theorem classification_consistent_witness :
    ((0 : ℚ) ≤ 60 ∧ (0 : ℚ) ≤ 5) ∧
    ((runTrack 60 (60 + 5) (1 / 20) 30 (fun _ => none) [] (newTrack 1 2)).status
        = Status.unknown ↔
      (runTrack 60 (60 + 5) (1 / 20) 30 (fun _ => none) [] (newTrack 1 2)).max_speed_kmh
        = 0) := by
  refine ⟨⟨by norm_num, by norm_num⟩, ?_⟩
  exact (classification_consistent 60 5 (1 / 20) 30 (fun _ => none) 1 2 []
    (by norm_num) (by norm_num)).2.2.2

/-! ### Claim C4: the overspeed email fires exactly once -/

theorem trackStep_status_over_mono (limit grace_limit mpp fps : ℚ)
    (lookup : String → Option String) (c : ℚ × ℚ) (fi : ℕ) (d : ℚ)
    (crop : Option Crop) (t : Track) (h0 : 0 ≤ t.max_speed_kmh)
    (hs : t.status = statusOf t.max_speed_kmh limit grace_limit)
    (ht : t.status = Status.overspeed) :
    (trackStep limit grace_limit mpp fps lookup c fi d crop t).tr.status
      = Status.overspeed := by
  rw [hs] at ht
  rw [trackStep_status_statusOf limit grace_limit mpp fps lookup c fi d crop
    t h0 hs, trackStep_max]
  exact statusOf_overspeed_iff.mpr
    (lt_of_lt_of_le (statusOf_overspeed_iff.mp ht)
      (speedPhase_max_mono mpp fps fi d t))

theorem trackStep_count_eq (limit grace_limit mpp fps : ℚ)
    (lookup : String → Option String) (c : ℚ × ℚ) (fi : ℕ) (d : ℚ)
    (crop : Option Crop) (t : Track) (h : TrackInv limit grace_limit t) :
    (if t.status = Status.overspeed then 1 else 0) +
      (if (trackStep limit grace_limit mpp fps lookup c fi d crop t).emitted
          = true then 1 else 0)
      = (if (trackStep limit grace_limit mpp fps lookup c fi d crop
          t).tr.status = Status.overspeed then (1 : ℕ) else 0) := by
  obtain ⟨h0, hs, hh⟩ := h
  have hemit : (trackStep limit grace_limit mpp fps lookup c fi d crop t).emitted
      = (decide ((trackStep limit grace_limit mpp fps lookup c fi d crop
          t).tr.status = Status.overspeed) && !t.overspeed_handled) := rfl
  by_cases ht : t.status = Status.overspeed
  · have hover := trackStep_status_over_mono limit grace_limit mpp fps lookup
      c fi d crop t h0 hs ht
    have hhandled : t.overspeed_handled = true := hh.mpr ht
    rw [hemit, hover, hhandled, ht]
    simp
  · have hhandled : t.overspeed_handled = false := by
      rcases Bool.eq_false_or_eq_true t.overspeed_handled with hb | hb
      · exact absurd (hh.mp hb) ht
      · exact hb
    rw [hemit, hhandled, if_neg ht]
    by_cases hover : (trackStep limit grace_limit mpp fps lookup c fi d crop
        t).tr.status = Status.overspeed
    · rw [hover]; simp
    · rw [if_neg hover]; simp [hover]

theorem trace_count_eq (limit grace_limit mpp fps : ℚ)
    (lookup : String → Option String) (inputs : List StepIn) (t : Track)
    (h : TrackInv limit grace_limit t) :
    (if t.status = Status.overspeed then 1 else 0) +
      ((runTrackTrace limit grace_limit mpp fps lookup inputs t).2.count true)
      = (if (runTrack limit grace_limit mpp fps lookup inputs t).status
          = Status.overspeed then (1 : ℕ) else 0) := by
  induction inputs generalizing t with
  | nil => simp [runTrackTrace, runTrack]
  | cons x xs ih =>
    have hstep := trackStep_count_eq limit grace_limit mpp fps lookup
      x.center x.frame_idx x.pix_dist x.crop t h
    have hinv := trackStep_inv limit grace_limit mpp fps lookup
      x.center x.frame_idx x.pix_dist x.crop t h
    have hih := ih _ hinv
    simp only [runTrackTrace, runTrack, List.count_cons]
    rw [← hih, ← hstep]
    rcases (trackStep limit grace_limit mpp fps lookup x.center x.frame_idx
        x.pix_dist x.crop t).emitted with _ | _ <;> simp <;> ring

/-- C4: starting from a fresh track with nonnegative configured limit and
grace band, the overspeed email is a one-shot event.  After any prefix of
the update sequence, the number of emails emitted so far equals 1 when the
track has (ever) reached overspeed status and 0 otherwise — so the email
fires exactly at the first evaluation whose status is overspeed and at no
later one — the one-shot flag is set exactly while the status is overspeed
(and is therefore never cleared, status severity being monotone), and the
total number of emails over the whole lifetime never exceeds one. -/
theorem overspeed_email_once (limit grace mpp fps : ℚ)
    (lookup : String → Option String) (id cls : ℕ) (inputs : List StepIn)
    (hl : 0 ≤ limit) (hg : 0 ≤ grace) :
    (∀ k : ℕ,
      ((runTrackTrace limit (limit + grace) mpp fps lookup (inputs.take k)
          (newTrack id cls)).2.count true
        = (if (runTrack limit (limit + grace) mpp fps lookup (inputs.take k)
            (newTrack id cls)).status = Status.overspeed then 1 else 0)) ∧
      ((runTrack limit (limit + grace) mpp fps lookup (inputs.take k)
          (newTrack id cls)).overspeed_handled = true ↔
        (runTrack limit (limit + grace) mpp fps lookup (inputs.take k)
          (newTrack id cls)).status = Status.overspeed)) ∧
    (runTrackTrace limit (limit + grace) mpp fps lookup inputs
        (newTrack id cls)).2.count true ≤ 1 := by
  have hinv0 := trackInv_init limit (limit + grace) hl (by linarith) id cls
  have hcnt : ∀ (l : List StepIn),
      (runTrackTrace limit (limit + grace) mpp fps lookup l
          (newTrack id cls)).2.count true
        = (if (runTrack limit (limit + grace) mpp fps lookup l
            (newTrack id cls)).status = Status.overspeed then 1 else 0) := by
    intro l
    have := trace_count_eq limit (limit + grace) mpp fps lookup l
      (newTrack id cls) hinv0
    simpa [newTrack] using this
  refine ⟨fun k => ⟨hcnt _, ?_⟩, ?_⟩
  · exact (runTrack_inv limit (limit + grace) mpp fps lookup (inputs.take k)
      (newTrack id cls) hinv0).2.2
  · rw [hcnt inputs]
    split <;> omega

/-- Witness for C4 on the empty update sequence with the default limits. -/
theorem overspeed_email_once_witness :
    ((0 : ℚ) ≤ 60 ∧ (0 : ℚ) ≤ 5) ∧
    (runTrackTrace 60 (60 + 5) (1 / 20) 30 (fun _ => none) []
        (newTrack 1 2)).2.count true ≤ 1 := by
  refine ⟨⟨by norm_num, by norm_num⟩, ?_⟩
  exact (overspeed_email_once 60 5 (1 / 20) 30 (fun _ => none) 1 2 []
    (by norm_num) (by norm_num)).2

/-! ### Association lemmas -/

theorem bestUpd_lt (cls : ℕ) (c : ℚ × ℚ) (i : ℕ) (tr : Track)
    (best : Option (ℕ × ℚ))
    (hbest : ∀ j bd, best = some (j, bd) → j < i) :
    ∀ j bd, bestUpd cls c i tr best = some (j, bd) → j < i + 1 := by
  intro j bd h
  by_cases hcls : tr.cls_id = cls
  · rcases hlc : tr.last_center with _ | lc
    · have he : bestUpd cls c i tr best = best := by simp [bestUpd, hcls, hlc]
      rw [he] at h
      exact Nat.lt_succ_of_lt (hbest j bd h)
    · rcases hb : best with _ | p
      · have he : bestUpd cls c i tr best = some (i, dist2 c lc) := by
          simp [bestUpd, hcls, hlc, hb]
        rw [he] at h
        simp only [Option.some.injEq, Prod.mk.injEq] at h
        omega
      · by_cases hd : dist2 c lc < p.2
        · have he : bestUpd cls c i tr best = some (i, dist2 c lc) := by
            rcases p with ⟨k, bd0⟩
            simp [bestUpd, hcls, hlc, hb, hd]
          rw [he] at h
          simp only [Option.some.injEq, Prod.mk.injEq] at h
          omega
        · have he : bestUpd cls c i tr best = best := by
            rcases p with ⟨k, bd0⟩
            simp only [bestUpd, hcls, if_true, hlc, hb]
            simp at hd
            simp [if_neg (not_lt.mpr hd)]
          rw [he] at h
          exact Nat.lt_succ_of_lt (hbest j bd h)
  · have he : bestUpd cls c i tr best = best := by simp [bestUpd, hcls]
    rw [he] at h
    exact Nat.lt_succ_of_lt (hbest j bd h)

theorem bestMatchAux_lt (cls : ℕ) (c : ℚ × ℚ) (l : List Track) :
    ∀ (i : ℕ) (best : Option (ℕ × ℚ)),
      (∀ j bd, best = some (j, bd) → j < i) →
      ∀ j bd, bestMatchAux cls c l i best = some (j, bd) → j < i + l.length := by
  induction l with
  | nil =>
    intro i best hbest j bd h
    simp only [bestMatchAux] at h
    simpa using hbest j bd h
  | cons tr rest ih =>
    intro i best hbest j bd h
    simp only [bestMatchAux] at h
    have hj := ih (i + 1) (bestUpd cls c i tr best)
      (bestUpd_lt cls c i tr best hbest) j bd h
    simp only [List.length_cons]
    omega

theorem bestMatch_lt (tracks : List Track) (cls : ℕ) (c : ℚ × ℚ) (i : ℕ)
    (bd : ℚ) (h : bestMatch tracks cls c = some (i, bd)) :
    i < tracks.length := by
  have := bestMatchAux_lt cls c tracks 0 none
    (fun j bd hj => Option.noConfusion hj) i bd h
  simpa using this

theorem processDetection_isSome (limit grace_limit mpp fps : ℚ)
    (sq : ℚ → ℚ) (lookup : String → Option String) (fi : ℕ)
    (st : FrameState) (det : Detection) :
    ((processDetection limit grace_limit mpp fps sq lookup fi st det).2).isSome
      = decide (det.cls_id ∈ VEHICLE_CLASS_IDS) := by
  by_cases hv : det.cls_id ∈ VEHICLE_CLASS_IDS
  · rcases hm : bestMatch st.tracks det.cls_id det.center with _ | p
    · simp [processDetection, hv, hm, createAndStep]
    · rcases p with ⟨i, bd⟩
      by_cases hg : bd < GATE2
      · have hi : i < st.tracks.length := bestMatch_lt st.tracks det.cls_id
          det.center i bd hm
        have hsome := List.getElem?_eq_getElem hi
        simp [processDetection, hv, hm, hg, hsome]
      · simp [processDetection, hv, hm, hg, createAndStep]
  · simp [processDetection, hv]

/-! ### Claim C2 (amended part): every vehicle detection gets exactly one
track -/

/-- C2 (amended): within one frame, every detection of a vehicle class is
assigned to exactly one track — matched to the nearest gated candidate or to
a newly created track, and never dropped: the list of per-detection track
assignments of a frame has exactly one entry per vehicle-class detection.
(The exclusivity half of the original claim is refuted by
the companion counterexample: nothing makes a matched track unavailable to
later detections of the same frame.) -/
theorem association_total (limit grace_limit mpp fps : ℚ) (sq : ℚ → ℚ)
    (lookup : String → Option String) (fi : ℕ) (dets : List Detection)
    (st : FrameState) :
    ((processFrame limit grace_limit mpp fps sq lookup fi st dets).2).length
      = (dets.filter
          (fun d => decide (d.cls_id ∈ VEHICLE_CLASS_IDS))).length := by
  induction dets generalizing st with
  | nil => simp [processFrame, processDetections]
  | cons d ds ih =>
    by_cases hv : d.cls_id ∈ VEHICLE_CLASS_IDS
    · have h2 : ((processDetection limit grace_limit mpp fps sq lookup fi
          st d).2).isSome = true := by
        rw [processDetection_isSome]
        simpa using hv
      obtain ⟨id0, hid⟩ := Option.isSome_iff_exists.mp h2
      have hfilter : (d :: ds).filter
            (fun d => decide (d.cls_id ∈ VEHICLE_CLASS_IDS))
          = d :: ds.filter (fun d => decide (d.cls_id ∈ VEHICLE_CLASS_IDS)) := by
        simp [List.filter_cons, hv]
      have hlhs : (processFrame limit grace_limit mpp fps sq lookup fi st
            (d :: ds)).2
          = id0 :: (processFrame limit grace_limit mpp fps sq lookup fi
              ((processDetection limit grace_limit mpp fps sq lookup fi
                st d).1) ds).2 := by
        simp [processFrame, processDetections, hid]
      rw [hlhs, hfilter, List.length_cons, List.length_cons, ih _]
    · have h2 : (processDetection limit grace_limit mpp fps sq lookup fi
          st d).2 = none := by
        rw [← Option.not_isSome_iff_eq_none, processDetection_isSome]
        simpa using hv
      have hfilter : (d :: ds).filter
            (fun d => decide (d.cls_id ∈ VEHICLE_CLASS_IDS))
          = ds.filter (fun d => decide (d.cls_id ∈ VEHICLE_CLASS_IDS)) := by
        simp [List.filter_cons, hv]
      have hlhs : (processFrame limit grace_limit mpp fps sq lookup fi st
            (d :: ds)).2
          = (processFrame limit grace_limit mpp fps sq lookup fi
              ((processDetection limit grace_limit mpp fps sq lookup fi
                st d).1) ds).2 := by
        simp [processFrame, processDetections, h2]
      rw [hlhs, hfilter, ih _]

/-! ### Claim C7: track removal -/

theorem map_track_id_set (l : List Track) (i : ℕ) (t t' : Track)
    (h : l[i]? = some t) (hid : t'.track_id = t.track_id) :
    (l.set i t').map Track.track_id = l.map Track.track_id := by
  induction l generalizing i with
  | nil => simp at h
  | cons a as ih =>
    cases i with
    | zero =>
      simp only [List.getElem?_cons_zero, Option.some.injEq] at h
      subst h
      simp [hid]
    | succ j =>
      simp only [List.getElem?_cons_succ] at h
      simp [ih j h]

theorem processDetection_ids (limit grace_limit mpp fps : ℚ) (sq : ℚ → ℚ)
    (lookup : String → Option String) (fi : ℕ) (st : FrameState)
    (det : Detection) :
    ∃ ns : List ℕ,
      ((processDetection limit grace_limit mpp fps sq lookup fi st
          det).1).tracks.map Track.track_id
        = st.tracks.map Track.track_id ++ ns := by
  by_cases hv : det.cls_id ∈ VEHICLE_CLASS_IDS
  · rcases hm : bestMatch st.tracks det.cls_id det.center with _ | p
    · exact ⟨[st.next_track_id],
        by simp [processDetection, hv, hm, createAndStep, newTrack,
          trackStep_track_id]⟩
    · rcases p with ⟨i, bd⟩
      by_cases hg : bd < GATE2
      · have hi : i < st.tracks.length :=
          bestMatch_lt st.tracks det.cls_id det.center i bd hm
        have hsome := List.getElem?_eq_getElem hi
        refine ⟨[], ?_⟩
        rw [List.append_nil]
        simp only [processDetection, hv, if_true, hm, hg, hsome]
        exact map_track_id_set st.tracks i _ _ hsome
          (trackStep_track_id limit grace_limit mpp fps lookup det.center fi
            (sq bd) det.crop _)
      · exact ⟨[st.next_track_id],
          by simp [processDetection, hv, hm, hg, createAndStep, newTrack,
            trackStep_track_id]⟩
  · exact ⟨[], by simp [processDetection, hv]⟩

theorem processFrame_ids (limit grace_limit mpp fps : ℚ) (sq : ℚ → ℚ)
    (lookup : String → Option String) (fi : ℕ) (dets : List Detection)
    (st : FrameState) :
    ∃ ns : List ℕ,
      ((processFrame limit grace_limit mpp fps sq lookup fi st
          dets).1).tracks.map Track.track_id
        = st.tracks.map Track.track_id ++ ns := by
  induction dets generalizing st with
  | nil => exact ⟨[], by simp [processFrame, processDetections]⟩
  | cons d ds ih =>
    obtain ⟨n1, h1⟩ := processDetection_ids limit grace_limit mpp fps sq
      lookup fi st d
    obtain ⟨n2, h2⟩ := ih ((processDetection limit grace_limit mpp fps sq
      lookup fi st d).1)
    refine ⟨n1 ++ n2, ?_⟩
    have hstep : (processFrame limit grace_limit mpp fps sq lookup fi st
          (d :: ds)).1
        = (processFrame limit grace_limit mpp fps sq lookup fi
            ((processDetection limit grace_limit mpp fps sq lookup fi st
              d).1) ds).1 := rfl
    rw [hstep, h2, h1, List.append_assoc]

/-- C7 (amended): `analyze_video` never deletes a track.  There is no expiry
sweep: over any processed frame sequence the stored track-identifier list
only grows by appending fresh identifiers; in particular a track that has
gone unmatched for arbitrarily many frames — for longer than any `max_age` —
is still in the store. -/
theorem tracks_never_removed (limit grace_limit mpp fps : ℚ) (sq : ℚ → ℚ)
    (lookup : String → Option String) (frames : List (ℕ × List Detection))
    (st : FrameState) :
    ∃ ns : List ℕ,
      (processVideo limit grace_limit mpp fps sq lookup frames
          st).tracks.map Track.track_id
        = st.tracks.map Track.track_id ++ ns := by
  induction frames generalizing st with
  | nil => exact ⟨[], by simp [processVideo]⟩
  | cons f fs ih =>
    obtain ⟨n1, h1⟩ := processFrame_ids limit grace_limit mpp fps sq lookup
      f.1 f.2 st
    obtain ⟨n2, h2⟩ := ih ((processFrame limit grace_limit mpp fps sq lookup
      f.1 st f.2).1)
    refine ⟨n1 ++ n2, ?_⟩
    have hstep : processVideo limit grace_limit mpp fps sq lookup (f :: fs) st
        = processVideo limit grace_limit mpp fps sq lookup fs
            ((processFrame limit grace_limit mpp fps sq lookup f.1 st
              f.2).1) := rfl
    rw [hstep, h2, h1, List.append_assoc]

/-- Counterexample for C7 as stated: it is not the case that after a frame is
processed, every stored track was updated within the last `max_age` frames.
Concretely, with `max_age = 30` (the value the repository passes to its
DeepSort tracker), a track last updated at frame 1 is still in the store
after frame 100 is processed — `analyze_video` has no removal path at all.
The instantiation `sq := fun _ => 0` is immaterial: no recorded speed and no
distance comparison occurs in this run (the lone detection creates a track
and the later frame is empty), so any square root yields the same states. -/
theorem stale_tracks_not_removed :
    ¬ (∀ (limit grace_limit mpp fps : ℚ) (sq : ℚ → ℚ)
        (lookup : String → Option String) (max_age : ℕ)
        (frames : List (ℕ × List Detection)) (fi : ℕ)
        (dets : List Detection),
        ∀ tr ∈ ((processFrame limit grace_limit mpp fps sq lookup fi
            (processVideo limit grace_limit mpp fps sq lookup frames
              initState) dets).1).tracks,
          ∀ lfi, tr.last_frame_idx = some lfi → fi ≤ lfi + max_age) := by
  intro h
  have hmem := h 60 65 (1 / 20) 30 (fun _ => 0) (fun _ => none) 30
    [(1, [⟨2, (0, 0), none⟩])] 100 []
  have heval : ((processFrame 60 65 (1 / 20) 30 (fun _ => 0) (fun _ => none)
      100
      (processVideo 60 65 (1 / 20) 30 (fun _ => 0) (fun _ => none)
        [(1, [⟨2, (0, 0), none⟩])] initState) []).1).tracks
      = [{ track_id := 1, cls_id := 2, last_center := some (0, 0),
           last_frame_idx := some 1, speeds_kmh := [], max_speed_kmh := 0,
           status := Status.unknown, plate_text := none, owner_info := none,
           overspeed_handled := false }] := by
    norm_num [processVideo, processFrame, processDetections, processDetection,
      createAndStep, bestMatch, bestMatchAux, bestUpd, trackStep, speedPhase,
      markPhase, classifyPhase, ocrPhase, emailPhase, newTrack, initState,
      VEHICLE_CLASS_IDS, GATE2, MIN_PIXELS_FOR_SPEED,
      read_plate_text_from_crop, estimate_speed_kmh, clampSpeed, dist2]
    all_goals simp
  rw [heval] at hmem
  have := hmem _ (List.mem_singleton.mpr rfl) 1 rfl
  omega

/-- Counterexample for C2 as stated: association is not exclusive.  In a
frame with two car detections at `(0,0)` and `(4,0)`, processed against a
store holding one car track last seen at `(0,0)`, both detections are
assigned to track 1 — the per-frame assignment list is `[1, 1]`, which has a
duplicate.  Nothing in the code marks a matched track as unavailable to
later detections of the same frame.  The run coincides with the true
square-root run: the only distance whose root is taken and compared is 0
(for the second matched detection the frame delta is already 0, so the
jitter conjunction is false regardless of the root of 16), and
`sq 0 = 0` agrees with the true square root. -/
theorem association_not_exclusive :
    ¬ (∀ (limit grace_limit mpp fps : ℚ) (sq : ℚ → ℚ)
        (lookup : String → Option String)
        (frames : List (ℕ × List Detection)) (fi : ℕ)
        (dets : List Detection),
        ((processFrame limit grace_limit mpp fps sq lookup fi
          (processVideo limit grace_limit mpp fps sq lookup frames
            initState) dets).2).Nodup) := by
  intro h
  have hnd := h 60 65 (1 / 20) 30 (fun _ => 0) (fun _ => none)
    [(1, [⟨2, (0, 0), none⟩])] 2 [⟨2, (0, 0), none⟩, ⟨2, (4, 0), none⟩]
  have heval : (processFrame 60 65 (1 / 20) 30 (fun _ => 0) (fun _ => none) 2
      (processVideo 60 65 (1 / 20) 30 (fun _ => 0) (fun _ => none)
        [(1, [⟨2, (0, 0), none⟩])] initState)
      [⟨2, (0, 0), none⟩, ⟨2, (4, 0), none⟩]).2 = [1, 1] := by
    norm_num [processVideo, processFrame, processDetections, processDetection,
      createAndStep, bestMatch, bestMatchAux, bestUpd, trackStep, speedPhase,
      markPhase, classifyPhase, ocrPhase, emailPhase, newTrack, initState,
      VEHICLE_CLASS_IDS, GATE2, MIN_PIXELS_FOR_SPEED,
      read_plate_text_from_crop, estimate_speed_kmh, clampSpeed, dist2]
  rw [heval] at hnd
  simp at hnd

/-! ### Claim C10: plate and owner enrichment is never populated -/

theorem ocrPhase_stub (lookup : String → Option String) (crop : Option Crop)
    (t : Track) (hp : t.plate_text = none) (ho : t.owner_info = none) :
    (ocrPhase lookup crop t).1.plate_text = none ∧
    (ocrPhase lookup crop t).1.owner_info = none ∧
    (ocrPhase lookup crop t).2 = false := by
  have hempty : (match crop with
      | some c => if 0 < c.size then read_plate_text_from_crop c else ""
      | none => "") = "" := by
    rcases crop with _ | c
    · rfl
    · simp only [read_plate_text_from_crop]
      split_ifs <;> rfl
  refine ⟨?_, ?_, ?_⟩
  · simp only [ocrPhase, hempty]
    split_ifs <;> simp [hp, ho]
  · simp only [ocrPhase, hempty]
    split_ifs <;> simp [hp, ho]
  · simp [ocrPhase, hempty]

theorem trackStep_enrichment (limit grace_limit mpp fps : ℚ)
    (lookup : String → Option String) (c : ℚ × ℚ) (fi : ℕ) (d : ℚ)
    (crop : Option Crop) (t : Track) (hp : t.plate_text = none)
    (ho : t.owner_info = none) :
    (trackStep limit grace_limit mpp fps lookup c fi d crop t).tr.plate_text
        = none ∧
    (trackStep limit grace_limit mpp fps lookup c fi d crop t).tr.owner_info
        = none ∧
    (trackStep limit grace_limit mpp fps lookup c fi d crop
        t).lookup_called = false := by
  have h3 := ocrPhase_stub lookup crop
    (classifyPhase limit grace_limit (markPhase c fi
      (speedPhase mpp fps fi d t))) hp ho
  exact ⟨h3.1, h3.2.1, h3.2.2⟩

/-- States whose tracks carry no plate text and no owner record and in which
`lookup_owner` has never been invoked. -/
def EnrichmentInv (st : FrameState) : Prop :=
  (∀ tr ∈ st.tracks, tr.plate_text = none ∧ tr.owner_info = none) ∧
  st.lookups = 0

theorem processDetection_enrichment (limit grace_limit mpp fps : ℚ)
    (sq : ℚ → ℚ) (lookup : String → Option String) (fi : ℕ)
    (st : FrameState) (det : Detection) (h : EnrichmentInv st) :
    EnrichmentInv
      (processDetection limit grace_limit mpp fps sq lookup fi st det).1 := by
  obtain ⟨htracks, hlook⟩ := h
  have hcreate : EnrichmentInv
      (createAndStep limit grace_limit mpp fps lookup fi st det).1 := by
    have hstub := trackStep_enrichment limit grace_limit mpp fps lookup
      det.center fi 0 det.crop (newTrack st.next_track_id det.cls_id)
      rfl rfl
    constructor
    · intro tr htr
      simp only [createAndStep] at htr
      rcases List.mem_append.mp htr with hin | hin
      · exact htracks tr hin
      · rcases List.mem_singleton.mp hin with rfl
        exact ⟨hstub.1, hstub.2.1⟩
    · simp [createAndStep, hstub.2.2, hlook]
  by_cases hv : det.cls_id ∈ VEHICLE_CLASS_IDS
  · rcases hm : bestMatch st.tracks det.cls_id det.center with _ | p
    · simpa [processDetection, hv, hm] using hcreate
    · rcases p with ⟨i, bd⟩
      by_cases hg : bd < GATE2
      · have hi : i < st.tracks.length :=
          bestMatch_lt st.tracks det.cls_id det.center i bd hm
        have hsome := List.getElem?_eq_getElem hi
        have hmemi : st.tracks[i] ∈ st.tracks := List.getElem_mem hi
        have hstub := trackStep_enrichment limit grace_limit mpp fps lookup
          det.center fi (sq bd) det.crop st.tracks[i]
          (htracks _ hmemi).1 (htracks _ hmemi).2
        constructor
        · intro tr htr
          simp only [processDetection, hv, if_true, hm, hg, hsome] at htr
          rcases List.mem_or_eq_of_mem_set htr with hin | hin
          · exact htracks tr hin
          · rcases hin with rfl
            exact ⟨hstub.1, hstub.2.1⟩
        · simp [processDetection, hv, hm, hg, hsome, hstub.2.2, hlook]
      · simpa [processDetection, hv, hm, hg] using hcreate
  · simpa [processDetection, hv] using ⟨htracks, hlook⟩

theorem processFrame_enrichment (limit grace_limit mpp fps : ℚ)
    (sq : ℚ → ℚ) (lookup : String → Option String) (fi : ℕ)
    (dets : List Detection) (st : FrameState) (h : EnrichmentInv st) :
    EnrichmentInv
      (processFrame limit grace_limit mpp fps sq lookup fi st dets).1 := by
  induction dets generalizing st with
  | nil => exact h
  | cons d ds ih =>
    exact ih ((processDetection limit grace_limit mpp fps sq lookup fi st
      d).1)
      (processDetection_enrichment limit grace_limit mpp fps sq lookup fi
        st d h)

theorem processVideo_enrichment (limit grace_limit mpp fps : ℚ)
    (sq : ℚ → ℚ) (lookup : String → Option String)
    (frames : List (ℕ × List Detection)) (st : FrameState)
    (h : EnrichmentInv st) :
    EnrichmentInv
      (processVideo limit grace_limit mpp fps sq lookup frames st) := by
  induction frames generalizing st with
  | nil => exact h
  | cons f fs ih =>
    exact ih ((processFrame limit grace_limit mpp fps sq lookup f.1 st
      f.2).1)
      (processFrame_enrichment limit grace_limit mpp fps sq lookup f.1 f.2
        st h)

/-- C10: the OCR stub returns the empty string on every crop, and as a
consequence, over any processed frame sequence, `lookup_owner` is never
invoked and every track in the store — in particular every track in the
produced report — has `plate_text = None` and `owner_info = None`. -/
theorem plate_fields_never_populated (limit grace_limit mpp fps : ℚ)
    (sq : ℚ → ℚ) (lookup : String → Option String)
    (frames : List (ℕ × List Detection)) :
    (∀ c : Crop, read_plate_text_from_crop c = "") ∧
    (processVideo limit grace_limit mpp fps sq lookup frames
        initState).lookups = 0 ∧
    (∀ tr ∈ (processVideo limit grace_limit mpp fps sq lookup frames
        initState).tracks, tr.plate_text = none ∧ tr.owner_info = none) ∧
    (∀ tr ∈ reportTracks (processVideo limit grace_limit mpp fps sq lookup
        frames initState), tr.plate_text = none ∧ tr.owner_info = none) := by
  have hinv := processVideo_enrichment limit grace_limit mpp fps sq lookup
    frames initState ⟨by intro tr htr; simp [initState] at htr, rfl⟩
  refine ⟨?_, hinv.2, hinv.1, ?_⟩
  · intro c
    unfold read_plate_text_from_crop
    split_ifs <;> rfl
  · intro tr htr
    exact hinv.1 tr (List.mem_of_mem_filter htr)

/-- The single track stored after a one-frame, one-car demonstration video. -/
def demoStoredTrack : Track :=
  { track_id := 1, cls_id := 2, last_center := some (0, 0),
    last_frame_idx := some 1, speeds_kmh := [], max_speed_kmh := 0,
    status := Status.unknown, plate_text := none, owner_info := none,
    overspeed_handled := false }

/-- Witness for C10 on a one-frame video producing one stored track. -/
theorem plate_fields_never_populated_witness :
    (processVideo 60 65 (1 / 20) 30 (fun _ => 0) (fun _ => none)
        [(1, [⟨2, (0, 0), none⟩])] initState).lookups = 0 ∧
    demoStoredTrack.plate_text = none := by
  constructor
  · exact (plate_fields_never_populated 60 65 (1 / 20) 30 (fun _ => 0)
      (fun _ => none) [(1, [⟨2, (0, 0), none⟩])]).2.1
  · have hmem : demoStoredTrack
        ∈ (processVideo 60 65 (1 / 20) 30 (fun _ => 0) (fun _ => none)
          [(1, [⟨2, (0, 0), none⟩])] initState).tracks := by
      have heval : (processVideo 60 65 (1 / 20) 30 (fun _ => 0)
          (fun _ => none) [(1, [⟨2, (0, 0), none⟩])] initState).tracks
          = [demoStoredTrack] := by
        norm_num [processVideo, processFrame, processDetections,
          processDetection, createAndStep, bestMatch, bestMatchAux, bestUpd,
          trackStep, speedPhase, markPhase, classifyPhase, ocrPhase,
          emailPhase, newTrack, initState, VEHICLE_CLASS_IDS, GATE2,
          MIN_PIXELS_FOR_SPEED, read_plate_text_from_crop,
          estimate_speed_kmh, clampSpeed, dist2, demoStoredTrack]
        all_goals simp
      rw [heval]
      exact List.mem_singleton.mpr rfl
    exact ((plate_fields_never_populated 60 65 (1 / 20) 30 (fun _ => 0)
      (fun _ => none) [(1, [⟨2, (0, 0), none⟩])]).2.2.1 _ hmem).1

/-! ### Claim C6: degenerate calibration input -/

theorem dist2_sum_eq_zero_iff (p1 p2 : ℚ × ℚ) :
    (p2.1 - p1.1) * (p2.1 - p1.1) + (p2.2 - p1.2) * (p2.2 - p1.2) = 0 ↔
      p1 = p2 := by
  constructor
  · intro h
    have hx : (p2.1 - p1.1) * (p2.1 - p1.1) = 0 ∧
        (p2.2 - p1.2) * (p2.2 - p1.2) = 0 :=
      (add_eq_zero_iff_of_nonneg (mul_self_nonneg _) (mul_self_nonneg _)).mp h
    have h1 : p2.1 = p1.1 := sub_eq_zero.mp (mul_self_eq_zero.mp hx.1)
    have h2 : p2.2 = p1.2 := sub_eq_zero.mp (mul_self_eq_zero.mp hx.2)
    exact Prod.ext_iff.mpr ⟨h1.symm, h2.symm⟩
  · intro h
    subst h
    ring

/-- C6 (amended): `compute_mpp` does fail fast on the degenerate input rather
than returning an infinite or undefined scale: when `p1 = p2` the Python code
evaluates `lane_width_m / 0.0`, which raises an uncaught `ZeroDivisionError`
(not the `DegenerateReferenceError` the spec names — no such exception class
exists anywhere in the repository); for `p1 ≠ p2` it returns
`lane_width_m / euclidean_distance(p1, p2)`. -/
theorem compute_mpp_spec (p1 p2 : ℚ × ℚ) (w : ℚ) :
    (p1 = p2 → compute_mpp p1 p2 w = Except.error "ZeroDivisionError") ∧
    (p1 ≠ p2 → compute_mpp p1 p2 w
      = Except.ok ((w : ℝ) / Real.sqrt
          (((p2.1 - p1.1) * (p2.1 - p1.1) +
            (p2.2 - p1.2) * (p2.2 - p1.2) : ℚ) : ℝ))) := by
  constructor
  · intro h
    unfold compute_mpp
    rw [if_pos ((dist2_sum_eq_zero_iff p1 p2).mpr h)]
  · intro h
    unfold compute_mpp
    rw [if_neg (fun hx => h ((dist2_sum_eq_zero_iff p1 p2).mp hx))]

/-- Counterexample for C6 as stated: at the degenerate input `p1 = p2 = (0,0)`
(with lane width 3.5) the computation fails with `ZeroDivisionError`, which
is not the claimed `DegenerateReferenceError`. -/
theorem compute_mpp_not_degenerate_error :
    compute_mpp (0, 0) (0, 0) (7 / 2) = Except.error "ZeroDivisionError" ∧
    Except.error (ε := String) (α := ℝ) "ZeroDivisionError"
      ≠ Except.error (ε := String) (α := ℝ) "DegenerateReferenceError" := by
  constructor
  · exact (compute_mpp_spec (0, 0) (0, 0) (7 / 2)).1 rfl
  · intro h
    have : ("ZeroDivisionError" : String) = "DegenerateReferenceError" := by
      injection h
    simp at this

/-- Witness for C6 (amended) at `p1 = (0,0)`, `p2 = (3,4)`, width 5. -/
theorem compute_mpp_spec_witness :
    (((0 : ℚ), (0 : ℚ)) ≠ ((3 : ℚ), (4 : ℚ))) ∧
    compute_mpp ((0 : ℚ), (0 : ℚ)) ((3 : ℚ), (4 : ℚ)) 5
      = Except.ok ((5 : ℝ) / Real.sqrt
          ((((3 : ℚ) - 0) * ((3 : ℚ) - 0) +
            ((4 : ℚ) - 0) * ((4 : ℚ) - 0) : ℚ) : ℝ)) := by
  have hne : (((0 : ℚ), (0 : ℚ))) ≠ (((3 : ℚ), (4 : ℚ))) := by
    intro h
    have := (Prod.ext_iff.mp h).1
    norm_num at this
  exact ⟨hne, (compute_mpp_spec ((0 : ℚ), (0 : ℚ)) ((3 : ℚ), (4 : ℚ)) 5).2 hne⟩

/-! ### Claim C9: the per-track history is an unbounded list, not a ring
buffer -/

theorem trackStep_last_frame (limit grace_limit mpp fps : ℚ)
    (lookup : String → Option String) (c : ℚ × ℚ) (fi : ℕ) (d : ℚ)
    (crop : Option Crop) (t : Track) :
    (trackStep limit grace_limit mpp fps lookup c fi d crop
      t).tr.last_frame_idx = some fi := rfl

theorem trackStep_last_center (limit grace_limit mpp fps : ℚ)
    (lookup : String → Option String) (c : ℚ × ℚ) (fi : ℕ) (d : ℚ)
    (crop : Option Crop) (t : Track) :
    (trackStep limit grace_limit mpp fps lookup c fi d crop
      t).tr.last_center = some c := rfl

theorem trackStep_records (limit grace_limit mpp fps : ℚ)
    (lookup : String → Option String) (c c0 : ℚ × ℚ) (fi m : ℕ) (d : ℚ)
    (crop : Option Crop) (t : Track) (hc : t.last_center = some c0)
    (hf : t.last_frame_idx = some m) (hm : m < fi)
    (hd : MIN_PIXELS_FOR_SPEED ≤ d) :
    (trackStep limit grace_limit mpp fps lookup c fi d crop
        t).tr.speeds_kmh.length = t.speeds_kmh.length + 1 := by
  rw [trackStep_speeds]
  unfold speedPhase
  rw [hc, hf]
  simp only
  rw [if_pos ⟨Int.sub_pos.mpr (by exact_mod_cast hm), hd⟩]
  simp

theorem runTrack_append (limit grace_limit mpp fps : ℚ)
    (lookup : String → Option String) (l1 l2 : List StepIn) (t : Track) :
    runTrack limit grace_limit mpp fps lookup (l1 ++ l2) t
      = runTrack limit grace_limit mpp fps lookup l2
          (runTrack limit grace_limit mpp fps lookup l1 t) := by
  induction l1 generalizing t with
  | nil => rfl
  | cons x xs ih => simpa [runTrack] using ih _

/-- Matched sample `k`: center `(4k, 0)`, frame `k`, displacement 4 px from
the previous sample (above the 3-px threshold). -/
def jogIn (k : ℕ) : StepIn :=
  { center := (4 * k, 0), frame_idx := k, pix_dist := 4, crop := none }

/-- The first `n + 1` samples of the steadily moving track. -/
def jogInputs (n : ℕ) : List StepIn :=
  (List.range (n + 1)).map (fun i => jogIn (i + 1))

/-- C9 is violated by the code: the per-track speed history is a plain Python
list that `analyze_video` appends to on every recorded sample, with no
capacity and no eviction (the dead `update_speed` helper appends to its
`HISTORY` deque-less dict in the same unbounded way).  After `n` recorded
samples the history holds exactly `n` entries, so for every alleged fixed
ring-buffer capacity `cap` the history of a track fed `cap + 1`
above-threshold samples exceeds `cap`: no bound independent of video length
exists. -/
theorem history_unbounded (limit grace_limit mpp fps : ℚ)
    (lookup : String → Option String) :
    ∀ n : ℕ,
      (runTrack limit grace_limit mpp fps lookup (jogInputs n)
        (newTrack 1 2)).speeds_kmh.length = n := by
  have key : ∀ n : ℕ,
      (runTrack limit grace_limit mpp fps lookup (jogInputs n)
        (newTrack 1 2)).speeds_kmh.length = n ∧
      (runTrack limit grace_limit mpp fps lookup (jogInputs n)
        (newTrack 1 2)).last_frame_idx = some (n + 1) ∧
      (runTrack limit grace_limit mpp fps lookup (jogInputs n)
        (newTrack 1 2)).last_center = some (4 * ((n + 1 : ℕ) : ℚ), 0) := by
    intro n
    induction n with
    | zero =>
      refine ⟨?_, ?_, ?_⟩ <;>
        simp [jogInputs, jogIn, runTrack, trackStep_speeds,
          trackStep_last_frame, trackStep_last_center, speedPhase, newTrack]
    | succ k ih =>
      obtain ⟨ihlen, ihfr, ihc⟩ := ih
      have hsplit : jogInputs (k + 1) = jogInputs k ++ [jogIn (k + 2)] := by
        simp [jogInputs, List.range_succ]
      have hrec := trackStep_records limit grace_limit mpp fps lookup
        (4 * ((k + 2 : ℕ) : ℚ), 0) (4 * ((k + 1 : ℕ) : ℚ), 0) (k + 2) (k + 1)
        4 none _ ihc ihfr (by omega)
        (by unfold MIN_PIXELS_FOR_SPEED; norm_num)
      refine ⟨?_, ?_, ?_⟩
      · rw [hsplit, runTrack_append]
        simp only [runTrack, jogIn]
        rw [hrec, ihlen]
      · rw [hsplit, runTrack_append]
        simp only [runTrack, jogIn]
        rw [trackStep_last_frame]
      · rw [hsplit, runTrack_append]
        simp only [runTrack, jogIn]
        rw [trackStep_last_center]
  exact fun n => (key n).1

end SpeedCam
